import Mathlib

/-!
Shallow embedding of `xapian-core/include/xapian/eset.h`: the `ESet`
container of query-expansion terms and its `ESetIterator` cursor.

The cursor stores its position as an offset from the logical end of the
set (`off_from_end`), of type `Xapian::doccount`, an unsigned 32-bit
machine integer.  We embed `doccount` values as `Nat` and make the
wraparound of each arithmetic operation explicit, modulo `2 ^ 32`.
-/

set_option maxRecDepth 8000

namespace Xapian

/-- Modulus of `Xapian::doccount` (unsigned 32-bit) arithmetic. -/
def doccountMod : Nat := 2 ^ 32

/-- Wraparound subtraction `a - b` of `doccount` values (C unsigned
subtraction modulo `2 ^ 32`). -/
def dsub (a b : Nat) : Nat :=
  (a % doccountMod + (doccountMod - b % doccountMod)) % doccountMod

/-- Wraparound increment `++x` of a `doccount` value. -/
def dinc (x : Nat) : Nat := (x + 1) % doccountMod

/-- Modelled from the spec: `ESet::Internal`, the reference-counted backing
store, is declared but not defined in the header.  Per the spec it holds the
ordered sequence of `(term, weight)` entries plus the expansion-bound
estimate, and `ESet::size()` reports the entry count as a `doccount`, so the
count is below `2 ^ 32`. -/
structure ESet where
  entries : List (String × Float)
  ebound : Nat
  size_lt : entries.length < doccountMod

/-- Modelled from the spec: `ESet::size()` is declared but not defined in the
header; it delegates to the store's entry count. -/
def ESet.size (s : ESet) : Nat := s.entries.length

/-- Embeds `ESet::empty()`: `return size() == 0;`. -/
def ESet.empty (s : ESet) : Bool := s.size == 0

/-- Modelled from the spec: `ESet::get_ebound()` returns the stored bound
estimate. -/
def ESet.get_ebound (s : ESet) : Nat := s.ebound

/-- Embeds `ESet::max_size()`: `return size();` (source comment: the size is
fixed once created). -/
def ESet.max_size (s : ESet) : Nat := s.size

/-- Embeds `ESet()`: the default constructor creates an empty `ESet`. -/
def ESet.default : ESet := ⟨[], 0, by decide⟩

/-- Embeds `Xapian::ESetIterator`: an `ESet` handle plus the current
position, stored as the offset from the end of the set. -/
structure ESetIterator where
  eset : ESet
  off_from_end : Nat

/-- Embeds `ESetIterator()`: create an unpositioned iterator
(`off_from_end(0)`, with a default-constructed `eset` member). -/
def ESetIterator.default : ESetIterator := ⟨ESet.default, 0⟩

/-- Embeds `ESetIterator::operator++()`: `--off_from_end;` (unsigned
decrement, wrapping at zero). -/
def ESetIterator.inc (it : ESetIterator) : ESetIterator :=
  ⟨it.eset, dsub it.off_from_end 1⟩

/-- Embeds `ESetIterator::operator--()`: `++off_from_end;` (unsigned
increment). -/
def ESetIterator.dec (it : ESetIterator) : ESetIterator :=
  ⟨it.eset, dinc it.off_from_end⟩

/-- Embeds `operator==(const ESetIterator&, const ESetIterator&)`:
`return a.off_from_end == b.off_from_end;`. -/
def ESetIterator.beq (a b : ESetIterator) : Bool :=
  a.off_from_end == b.off_from_end

/-- Embeds `operator!=(const ESetIterator&, const ESetIterator&)`:
`return !(a == b);`. -/
def ESetIterator.bne (a b : ESetIterator) : Bool := !(a.beq b)

/-- Embeds `ESet::begin()`: `return ESetIterator(*this, size());`. -/
def ESet.begin (s : ESet) : ESetIterator := ⟨s, s.size⟩

/-- Embeds `ESet::end()`: `return ESetIterator(*this, 0);`. -/
def ESet.end_ (s : ESet) : ESetIterator := ⟨s, 0⟩

/-- Embeds `ESet::operator[](i)` (the spec's `at(index)`):
`return ESetIterator(*this, size() - i);` with `doccount` wraparound
subtraction and no bounds check. -/
def ESet.index (s : ESet) (i : Nat) : ESetIterator := ⟨s, dsub s.size i⟩

/-- Embeds `ESet::back()`: `return ESetIterator(*this, 1);` with no
emptiness check. -/
def ESet.back (s : ESet) : ESetIterator := ⟨s, 1⟩

/-- Modelled from the spec: `ESetIterator::operator*` and
`ESetIterator::get_weight` are declared but not defined in the header.  Per
the spec they require `0 < off_from_end <= size` and read the entry at
logical index `size - off_from_end`; we return the whole `(term, weight)`
entry, and `none` outside the valid range. -/
def ESetIterator.deref (it : ESetIterator) : Option (String × Float) :=
  if 0 < it.off_from_end ∧ it.off_from_end ≤ it.eset.size then
    it.eset.entries[it.eset.size - it.off_from_end]?
  else none

/-- The two-entry scenario store from the spec:
entries `("cat", 2.5)` and `("dog", 1.1)`, bound 5. -/
def catDog : ESet := ⟨[("cat", 2.5), ("dog", 1.1)], 5, by decide⟩

/-! ### Helper lemmas on the wraparound arithmetic -/

theorem dsub_eq_of_le (a b : Nat) (ha : a < doccountMod) (hb : b ≤ a) :
    dsub a b = a - b := by
  unfold dsub
  rw [Nat.mod_eq_of_lt ha, Nat.mod_eq_of_lt (Nat.lt_of_le_of_lt hb ha)]
  have h1 : a + (doccountMod - b) = doccountMod + (a - b) := by omega
  rw [h1, Nat.add_mod_left, Nat.mod_eq_of_lt (by omega)]

theorem dsub_self (a : Nat) : dsub a a = 0 := by
  unfold dsub
  have h : a % doccountMod < doccountMod := Nat.mod_lt _ (by decide)
  have h2 : a % doccountMod + (doccountMod - a % doccountMod) = doccountMod := by
    omega
  rw [h2, Nat.mod_self]

/-- Advancing `begin()` k times (k within the size) lands at offset
`size - k` on the same set. -/
theorem inc_iterate_begin (s : ESet) :
    ∀ k, k ≤ s.size →
      (ESetIterator.inc)^[k] s.begin = ⟨s, s.size - k⟩ := by
  intro k
  induction k with
  | zero =>
      intro _
      simp [ESet.begin]
  | succ n ih =>
      intro hk
      rw [Function.iterate_succ_apply', ih (Nat.le_of_succ_le hk)]
      show (⟨s, dsub (s.size - n) 1⟩ : ESetIterator) = ⟨s, s.size - (n + 1)⟩
      have h1 : s.size - n < doccountMod :=
        Nat.lt_of_le_of_lt (Nat.sub_le _ _) s.size_lt
      have h2 : 1 ≤ s.size - n := by omega
      rw [dsub_eq_of_le _ _ h1 h2]
      exact congrArg (ESetIterator.mk s) (by omega)

/-! ### Claim theorems -/

/-- C1, counterexample: the claim says `at(index)` with `index >= size()` and
`back()` on an empty set fail fast and never return a sentinel cursor.  In
the code there is no bounds check: on the two-entry set, `at(2)` returns a
cursor that compares equal to the `end()` sentinel, and on the empty set
`back()` returns an ordinary (invalid) cursor with `off_from_end = 1` whose
dereference is merely undefined — no operation fails. -/
theorem at_out_of_range_returns_end_concrete :
    ESetIterator.beq (catDog.index 2) catDog.end_ = true ∧
    ESet.default.back.off_from_end = 1 ∧
    (ESet.default.back).deref = none :=
  ⟨by decide, rfl, rfl⟩

/-- C1 (amended): `at(index)` with `index >= size()` and `back()` on an empty
set are caller errors the code does not detect: no bounds check is performed
and an ordinary cursor is returned — `at` computes `off_from_end` as
`size() - index` with unsigned wraparound (so `at(size())` compares equal to
the `end()` sentinel), and `back()` always yields `off_from_end = 1`, even on
an empty set; neither operation clamps, fails, or signals an error. -/
theorem at_back_no_bounds_check (s : ESet) (i : Nat) :
    ESetIterator.beq (s.index s.size) s.end_ = true ∧
    (s.index i).off_from_end = dsub s.size i ∧
    s.back.off_from_end = 1 := by
  refine ⟨?_, rfl, rfl⟩
  show (dsub s.size s.size == 0) = true
  rw [dsub_self]
  rfl

/-- C2: for `0 <= i < size()`, the cursor `at(i)` dereferences to the same
`(term, weight)` entry as the cursor obtained by advancing `begin()` exactly
`i` times, namely the entry at index `i`, which exists. -/
theorem at_deref_eq_begin_advanced (s : ESet) (i : Nat) (hi : i < s.size) :
    (s.index i).deref = ((ESetIterator.inc)^[i] s.begin).deref ∧
    (s.index i).deref = s.entries[i]? ∧
    ((s.index i).deref).isSome = true := by
  have hiter : (ESetIterator.inc)^[i] s.begin = ⟨s, s.size - i⟩ :=
    inc_iterate_begin s i (Nat.le_of_lt hi)
  have hidx : s.index i = ⟨s, s.size - i⟩ := by
    have h := dsub_eq_of_le s.size i s.size_lt (Nat.le_of_lt hi)
    show (⟨s, dsub s.size i⟩ : ESetIterator) = _
    rw [h]
  have hderef : (s.index i).deref = s.entries[i]? := by
    rw [hidx]
    show (if 0 < s.size - i ∧ s.size - i ≤ s.size then
        s.entries[s.size - (s.size - i)]? else none) = s.entries[i]?
    rw [if_pos ⟨by omega, by omega⟩]
    have h : s.size - (s.size - i) = i := by omega
    rw [h]
  refine ⟨by rw [hiter, hidx], hderef, ?_⟩
  rw [hderef]
  have : i < s.entries.length := hi
  simp [List.getElem?_eq_getElem this]

/-- C2, witness at the spec's scenario store: index 1 of the two-entry set. -/
theorem at_deref_eq_begin_advanced_witness :
    1 < catDog.size ∧
      ((catDog.index 1).deref = ((ESetIterator.inc)^[1] catDog.begin).deref ∧
       (catDog.index 1).deref = catDog.entries[1]? ∧
       ((catDog.index 1).deref).isSome = true) :=
  ⟨by decide, at_deref_eq_begin_advanced catDog 1 (by decide)⟩

/-- C3: `begin()` compares equal to `end()` iff `size() == 0`: both factories
hand the iterator the same set, with offsets `size()` and `0`, and equality
compares offsets only. -/
theorem begin_eq_end_iff (s : ESet) :
    ESetIterator.beq s.begin s.end_ = true ↔ s.size = 0 := by
  simp [ESetIterator.beq, ESet.begin, ESet.end_]

/-- C4: two cursors compare equal iff their `off_from_end` values are equal,
regardless of which set each cursor holds — the comparison reads only the
offsets. -/
theorem iter_eq_iff_off (a b : ESetIterator) :
    ESetIterator.beq a b = true ↔ a.off_from_end = b.off_from_end := by
  simp [ESetIterator.beq]

/-- C5, counterexample: the claim says advancing a cursor already at `end()`
must fail rather than wrap the internal counter.  In the code `operator++`
unconditionally decrements the unsigned counter: on the empty set's `end()`
cursor it silently wraps `off_from_end` from 0 to `2 ^ 32 - 1` and returns
normally, which is neither a failure nor a no-op. -/
theorem inc_at_end_wraps_concrete :
    (ESet.default.end_.inc).off_from_end = doccountMod - 1 ∧
    ESetIterator.beq ESet.default.end_.inc ESet.default.end_ = false :=
  ⟨by decide, by decide⟩

/-- C5 (amended): advancing a cursor at `end()` (`off_from_end = 0`) is a
caller contract violation that the code does not detect: `operator++`
unconditionally decrements the unsigned counter, wrapping it from 0 to
`2 ^ 32 - 1`; the operation neither fails nor no-ops, and the resulting
cursor is invalid for dereference. -/
theorem inc_at_end_wraps (it : ESetIterator) (h : it.off_from_end = 0) :
    it.inc.off_from_end = doccountMod - 1 := by
  show dsub it.off_from_end 1 = doccountMod - 1
  rw [h]
  decide

/-- C5 (amended), witness: the `end()` cursor of the two-entry set. -/
theorem inc_at_end_wraps_witness :
    catDog.end_.off_from_end = 0 ∧
      catDog.end_.inc.off_from_end = doccountMod - 1 :=
  ⟨rfl, inc_at_end_wraps catDog.end_ rfl⟩

/-- C6: for a non-empty set, `back()` compares equal to `end()` retreated
once, and `back()` has `off_from_end = 1`. -/
theorem back_eq_end_dec (s : ESet) (h : 0 < s.size) :
    ESetIterator.beq s.back s.end_.dec = true ∧
    s.back.off_from_end = 1 := by
  refine ⟨?_, rfl⟩
  show (1 == dinc 0) = true
  decide

/-- C6, witness: the two-entry scenario set. -/
theorem back_eq_end_dec_witness :
    0 < catDog.size ∧
      (ESetIterator.beq catDog.back catDog.end_.dec = true ∧
       catDog.back.off_from_end = 1) :=
  ⟨by decide, back_eq_end_dec catDog (by decide)⟩

/-- C7: from any valid position (`0 < off_from_end <= size`), advancing then
retreating returns the cursor to an equal position. -/
theorem inc_dec_roundtrip (it : ESetIterator)
    (h1 : 0 < it.off_from_end) (h2 : it.off_from_end ≤ it.eset.size) :
    ESetIterator.beq (it.inc.dec) it = true := by
  have hW : it.off_from_end < doccountMod :=
    Nat.lt_of_le_of_lt h2 it.eset.size_lt
  show (dinc (dsub it.off_from_end 1) == it.off_from_end) = true
  rw [dsub_eq_of_le _ _ hW h1]
  unfold dinc
  rw [Nat.sub_add_cancel h1, Nat.mod_eq_of_lt hW]
  simp

/-- C7, witness: the `begin()` cursor of the two-entry set. -/
theorem inc_dec_roundtrip_witness :
    0 < catDog.begin.off_from_end ∧
    catDog.begin.off_from_end ≤ catDog.begin.eset.size ∧
    ESetIterator.beq (catDog.begin.inc.dec) catDog.begin = true :=
  ⟨by decide, by decide, inc_dec_roundtrip catDog.begin (by decide) (by decide)⟩

/-- C8: the cursor factories establish the spec's positions — `begin()` at
offset `size()`, `end()` at offset 0, `at(i)` at offset `size() - i` for an
in-range `i`, and `back()` at offset 1. -/
theorem factory_positions (s : ESet) (i : Nat) (hi : i < s.size) :
    s.begin.off_from_end = s.size ∧
    s.end_.off_from_end = 0 ∧
    (s.index i).off_from_end = s.size - i ∧
    s.back.off_from_end = 1 := by
  refine ⟨rfl, rfl, ?_, rfl⟩
  exact dsub_eq_of_le _ _ s.size_lt (Nat.le_of_lt hi)

/-- C8, witness: the two-entry scenario set at index 1. -/
theorem factory_positions_witness :
    1 < catDog.size ∧
      (catDog.begin.off_from_end = catDog.size ∧
       catDog.end_.off_from_end = 0 ∧
       (catDog.index 1).off_from_end = catDog.size - 1 ∧
       catDog.back.off_from_end = 1) :=
  ⟨by decide, factory_positions catDog 1 (by decide)⟩

/-- C9: a default-constructed (unpositioned) iterator has
`off_from_end = 0`, so it compares equal to `s.end()` for every set `s`
(equality reads offsets only), although it holds only the default empty set
and is not dereferenceable. -/
theorem default_iter_eq_end (s : ESet) :
    ESetIterator.default.off_from_end = 0 ∧
    ESetIterator.beq ESetIterator.default s.end_ = true ∧
    ESetIterator.default.deref = none :=
  ⟨rfl, rfl, rfl⟩

/-- C10: for every set, `max_size()` returns `size()` and `empty()` returns
whether `size()` is zero; the capacity is fixed to the size once created. -/
theorem max_size_empty_spec (s : ESet) :
    s.max_size = s.size ∧ s.empty = (s.size == 0) :=
  ⟨rfl, rfl⟩

end Xapian
